import Mathlib

/-
Verification of the MemoryFlipGameSDL2 board model and turn controller.

This file gives a shallow embedding of the game logic in
src/MemoryFlipGameSDL2/MemoryFlipGameSDL2.cpp and proves properties of it.

Modelling conventions:
* `SDL_Rect` (C `int` fields) becomes `Rect` with `Int` fields.
* The Mersenne-twister stream feeding `uniform_int_distribution<int>(1, 9)`
  is injected as a function `d : Nat → Nat` giving the successive drawn
  digits; a `std::string` id of ten digit characters is represented as the
  list of its ten digits (the digit-to-character map is injective, so
  equality of ids coincides).
* `std::shuffle`'s engine is injected as `js : Nat → Nat`; at step `i` the
  drawn position in `[0, i]` is `js i % (i + 1)`, matching the uniform
  draw `D(g, 0, i)` of the Fisher–Yates loop used by `std::shuffle`.
* Mutation of the global vectors becomes explicit state passing.
-/

/-- Screen or atlas rectangle, mirroring `SDL_Rect` (`int x y w h`). -/
structure Rect where
  x : Int
  y : Int
  w : Int
  h : Int
deriving DecidableEq

/-- The `puzzlePiece::VisState` enum of the source. -/
inductive VisState where
  | HIDDEN
  | FLIPPED
  | SOLVED
deriving DecidableEq

/-- The `puzzlePiece` struct: atlas source rectangle, visual state, id. -/
structure Piece where
  srcRect : Rect
  visState : VisState
  id : List Nat
deriving DecidableEq

/-- A default-constructed `puzzlePiece`: zeroed rect, `HIDDEN`, empty id. -/
def defaultPiece : Piece :=
  { srcRect := { x := 0, y := 0, w := 0, h := 0 },
    visState := VisState.HIDDEN, id := [] }

/-- `const int puzzlePieceSize = 40`. -/
def puzzlePieceSize : Int := 40

/-- `const int puzzlePiecesTotal = 100`. -/
def puzzlePiecesTotal : Nat := 100

/-- `const int sizeHalf = puzzlePiecesTotal / 2`. -/
def sizeHalf : Nat := puzzlePiecesTotal / 2

/-- `const int maxFlipped = 2`. -/
def maxFlipped : Nat := 2

/-- Countdown helper for `isqrt`: largest `k` below the fuel bound with
`k * k ≤ n` (zero when none exists). -/
def isqrtAux (n : Nat) : Nat → Nat
  | 0 => 0
  | k + 1 => if k * k ≤ n then k else isqrtAux n k

/-- Largest `k` with `k * k ≤ n`: the value of the C expression
`(int)sqrt((double)n)` for the inputs considered here (the conversion to
`int` truncates the exact floating square root toward zero).  Defined by
structural countdown so that it evaluates inside the kernel. -/
def isqrt (n : Nat) : Nat := isqrtAux n (n + 1)

/-- The id generated for piece `rectI`: ten successive draws from the
digit distribution, consumed in stream order (piece `rectI` consumes
draws `10 * rectI` through `10 * rectI + 9`). -/
def mkId (d : Nat → Nat) (rectI : Nat) : List Nat :=
  (List.range 10).map (fun k => d (10 * rectI + k))

/-- The `Set src coords` loop of `programStartup`: builds the first
`sizeHalf` pieces, assigning each its atlas rectangle (row-major layout
with wrap length `xRowLen`) and a freshly drawn id.  The fuel argument
counts the remaining iterations; `rectI` is the loop counter. -/
def srcLoop (d : Nat → Nat) (xRowLen : Int) :
    Nat → Nat → Int → Int → Int → List Piece
  | 0, _, _, _, _ => []
  | n + 1, rectI, xOff, yOff, rowCount =>
    { srcRect := { x := xOff, y := yOff, w := puzzlePieceSize, h := puzzlePieceSize },
      visState := VisState.HIDDEN,
      id := mkId d rectI } ::
    (if rowCount ≥ xRowLen then
      srcLoop d xRowLen n (rectI + 1) 0 (yOff + puzzlePieceSize) 0
    else
      srcLoop d xRowLen n (rectI + 1) (xOff + puzzlePieceSize) yOff (rowCount + 1))

/-- First half of `puzzlePiecesAll` as written by the src-coords loop.
The source computes `xRowLen = (sqrt(puzzlePiecesTotal) / 2) - 1` in
`double` arithmetic; the integer model below agrees with it at the
program's constant 100 (and at the inputs used in this file). -/
def setupSrcPieces (d : Nat → Nat) (total : Nat) : List Piece :=
  srcLoop d (((isqrt total : Int) / 2) - 1) (total / 2) 0 0 0 0

/-- The `std::copy(all.begin(), all.begin() + sizeHalf, all.begin() + sizeHalf)`
call of `programStartup`: positions `[h, 2*h)` of the vector receive copies
of positions `[0, h)`; the rest is untouched.  (The program calls it on a
vector of length `2*h = 100`, for which the destination range is valid.) -/
def stdCopyHalf (h : Nat) (l : List Piece) : List Piece :=
  l.take h ++ (l.take h ++ l.drop (h + h))

/-- The full tile vector after the `Set src coords` block of
`programStartup`: the loop writes the first half of the
default-constructed vector, then the `std::copy` duplicates the first
half into the second half. -/
def setupPieces (d : Nat → Nat) (total : Nat) : List Piece :=
  stdCopyHalf (total / 2)
    (setupSrcPieces d total ++ List.replicate (total - total / 2) defaultPiece)

/-- `const int xBoardOffset = 75`. -/
def xBoardOffset : Int := 75

/-- `const int yBoardOffset = 40`. -/
def yBoardOffset : Int := 40

/-- `const int betweenPiecesOffset = 5`. -/
def betweenPiecesOffset : Int := 5

/-- The `Set dst coords` loop of `programStartup`: builds the slot
rectangles in row-major order with wrap length `xRowLen`. -/
def dstLoop (xRowLen : Int) : Nat → Int → Int → Int → List Rect
  | 0, _, _, _ => []
  | n + 1, xOff, yOff, rowCount =>
    { x := xOff + xBoardOffset, y := yOff + yBoardOffset,
      w := puzzlePieceSize, h := puzzlePieceSize } ::
    (if rowCount ≥ xRowLen then
      dstLoop xRowLen n 0 (yOff + puzzlePieceSize + betweenPiecesOffset) 0
    else
      dstLoop xRowLen n (xOff + puzzlePieceSize + betweenPiecesOffset) yOff (rowCount + 1))

/-- The slot rectangles for a given total, `xRowLen = sqrt(total) - 1`. -/
def dstCoordsOf (total : Nat) : List Rect :=
  dstLoop ((isqrt total : Int) - 1) total 0 0 0

/-- The global `dstCoords` vector as laid out by `programStartup`.  It is
written once during startup and never modified afterwards (the shuffle
touches only `puzzlePiecesAll`). -/
def dstCoords : List Rect := dstCoordsOf puzzlePiecesTotal

/-- `mouseWithinRectBound`: the inclusive point-in-rectangle test. -/
def mouseWithinRectBound (p : Int × Int) (rect : Rect) : Bool :=
  decide (p.1 ≥ rect.x) && decide (p.1 ≤ rect.x + rect.w) &&
  decide (p.2 ≥ rect.y) && decide (p.2 ≤ rect.y + rect.h)

/-- One `std::swap(first[i], first[j])` on a list; out-of-range indices
leave the list unchanged (the shuffle only ever swaps in range). -/
def listSwap (l : List α) (i j : Nat) : List α :=
  if hi : i < l.length then
    if hj : j < l.length then
      (l.set i (l.get ⟨j, hj⟩)).set j (l.get ⟨i, hi⟩)
    else l
  else l

/-- The Fisher–Yates loop of `std::shuffle`: for `i` from `n - 1` down to
`1`, swap position `i` with the drawn position `js i % (i + 1)`. -/
def fisherYatesAux (js : Nat → Nat) : Nat → List α → List α
  | 0, l => l
  | i + 1, l => fisherYatesAux js i (listSwap l (i + 1) (js (i + 1) % (i + 2)))

/-- `std::shuffle(first, last, g)` on a list, with injected engine `js`. -/
def shuffleList (js : Nat → Nat) (l : List α) : List α :=
  fisherYatesAux js (l.length - 1) l

/-- The pair of globals `puzzlePiecesAll` and `dstCoords` as one state. -/
structure BoardState where
  pieces : List Piece
  dst : List Rect
deriving DecidableEq

/-- `shufflePuzzlePieces`: shuffles `puzzlePiecesAll` in place; the global
`dstCoords` is not mentioned by the function and is unchanged. -/
def shufflePuzzlePieces (js : Nat → Nat) (b : BoardState) : BoardState :=
  { pieces := shuffleList js b.pieces, dst := b.dst }

/-- The configuration-error taxon named by the specification. -/
inductive ConfigError where
  | configurationError
deriving DecidableEq

/-- The board produced by `programStartup` (its game-logic part: src
coords, the duplicating copy, dst coords, then the one shuffle),
parameterised by the tile total.  The `Except` result type expresses the
specification's claimed `ConfigurationError` failure mode; the source
performs no validation of the tile count anywhere, so the model returns
`Except.ok` for every input. -/
def programStartupModel (d js : Nat → Nat) (total : Nat) :
    Except ConfigError BoardState :=
  Except.ok (shufflePuzzlePieces js
    { pieces := setupPieces d total, dst := dstCoordsOf total })

/-- Whether the modelled startup completes without a configuration error. -/
def startupSucceeds (d js : Nat → Nat) (total : Nat) : Bool :=
  match programStartupModel d js total with
  | Except.ok _ => true
  | Except.error _ => false

/-- The `ProgramState` enum of the source. -/
inductive ProgramState where
  | STARTUP
  | PLAY
  | TRANSITION
  | SHUTDOWN
deriving DecidableEq

/-- The mutable game-logic globals during play: `puzzlePiecesAll`,
`flippedCount`, the two cells of `flippedIndices`, `flipTimer`,
`programState`.  (`dstCoords` is constant after startup and is kept as
the separate top-level definition `dstCoords`.) -/
structure GameState where
  pieces : List Piece
  flippedCount : Nat
  fi0 : Nat
  fi1 : Nat
  flipTimer : Nat
  programState : ProgramState

/-- The scan of the mouse-button loop in `eventPoll`: walking slots and
tiles in parallel from index `k`, return the first index whose slot
rectangle contains the click and whose tile is `HIDDEN` (the loop breaks
there; slots containing the click with a non-hidden tile do not break the
loop). -/
def findClickAux (p : Int × Int) : List Rect → List Piece → Nat → Option Nat
  | [], _, _ => none
  | _ :: _, [], _ => none
  | r :: rs, pc :: pcs, k =>
    if mouseWithinRectBound p r && decide (pc.visState = VisState.HIDDEN) then
      some k
    else
      findClickAux p rs pcs (k + 1)

/-- First slot index (in `dstCoords` order) containing the click whose
tile is hidden, as found by the `eventPoll` loop. -/
def findClickTarget (p : Int × Int) (pieces : List Piece) : Option Nat :=
  findClickAux p dstCoords pieces 0

/-- Scan for the first slot rectangle containing a point, from index `k`. -/
def firstContainingAux (p : Int × Int) : List Rect → Nat → Option Nat
  | [], _ => none
  | r :: rs, k =>
    if mouseWithinRectBound p r then some k
    else firstContainingAux p rs (k + 1)

/-- The first slot (in `dstCoords` order) whose rectangle contains `p`. -/
def firstContaining (p : Int × Int) : Option Nat :=
  firstContainingAux p dstCoords 0

/-- `puzzlePiecesAll[i].visState = v` as a list update. -/
def setVis (l : List Piece) (i : Nat) (v : VisState) : List Piece :=
  l.set i { l.getD i defaultPiece with visState := v }

/-- `puzzleSolved()`: true iff every tile's state is `SOLVED`. -/
def puzzleSolved (l : List Piece) : Bool :=
  l.all (fun obj => decide (obj.visState = VisState.SOLVED))

/-- Number of tiles currently in the `FLIPPED` visual state. -/
def countFlipped (l : List Piece) : Nat :=
  l.countP (fun pc => decide (pc.visState = VisState.FLIPPED))

/-- The `SDL_MOUSEBUTTONDOWN` branch of `eventPoll` for a left click at
`p`: find the first slot containing the click whose tile is hidden; if
`flippedCount < maxFlipped`, record the index in `flippedIndices[0]` or
`[1]`, flip the tile, and increment `flippedCount`; otherwise the loop
breaks without changing anything. -/
def clickPart (p : Int × Int) (s : GameState) : GameState :=
  match findClickTarget p s.pieces with
  | none => s
  | some i =>
    if s.flippedCount < maxFlipped then
      { s with
        fi0 := if s.flippedCount = 0 then i else s.fi0,
        fi1 := if s.flippedCount = 1 then i else s.fi1,
        pieces := setVis s.pieces i VisState.FLIPPED,
        flippedCount := s.flippedCount + 1 }
    else s

/-- The flip-timer block at the end of `eventPoll`: while
`flippedCount >= maxFlipped`, increment `flipTimer`; once it exceeds 40,
compare the two pending tiles' ids, solve or re-hide both, possibly
transition on a full solve, and reset `flippedCount` and `flipTimer`. -/
def timerPart (s : GameState) : GameState :=
  if maxFlipped ≤ s.flippedCount then
    if s.flipTimer + 1 > 40 then
      if (s.pieces.getD s.fi0 defaultPiece).id
          = (s.pieces.getD s.fi1 defaultPiece).id then
        { s with
          pieces := setVis (setVis s.pieces s.fi0 VisState.SOLVED) s.fi1 VisState.SOLVED,
          programState :=
            if puzzleSolved
                (setVis (setVis s.pieces s.fi0 VisState.SOLVED) s.fi1 VisState.SOLVED) then
              ProgramState.TRANSITION
            else s.programState,
          flippedCount := 0,
          flipTimer := 0 }
      else
        { s with
          pieces := setVis (setVis s.pieces s.fi0 VisState.HIDDEN) s.fi1 VisState.HIDDEN,
          flippedCount := 0,
          flipTimer := 0 }
    else { s with flipTimer := s.flipTimer + 1 }
  else s

/-- One `eventPoll` call that polled a left mouse click at `p`. -/
def eventPollClick (p : Int × Int) (s : GameState) : GameState :=
  timerPart (clickPart p s)

/-- One `eventPoll` call that polled no relevant event (a pure tick). -/
def eventPollTick (s : GameState) : GameState :=
  timerPart s

/-- The game state at the start of play: pieces set up and shuffled, the
counters zero-initialised (`flippedIndices` is a zero-initialised
`std::vector<int>(2)`), program in `PLAY`. -/
def initState (d js : Nat → Nat) : GameState :=
  { pieces := shuffleList js (setupPieces d puzzlePiecesTotal),
    flippedCount := 0, fi0 := 0, fi1 := 0, flipTimer := 0,
    programState := ProgramState.PLAY }

/-- States reachable from the initial board by click and tick steps. -/
inductive Reachable : GameState → Prop
  | init (d js : Nat → Nat) : Reachable (initState d js)
  | click (s : GameState) (p : Int × Int) :
      Reachable s → Reachable (eventPollClick p s)
  | tick (s : GameState) : Reachable s → Reachable (eventPollTick s)

/-- The draw calls `renderUpdate` can emit, abstracting the renderer. -/
inductive RenderCmd where
  | clear
  | copyHidden (dst : Rect)
  | copyPuzzle (src : Rect) (dst : Rect)
  | copyOutline (dst : Rect)
  | present
deriving DecidableEq

/-- The body of the `renderUpdate` loop for one tile: hidden tiles get
the hidden-state texture, flipped tiles get the atlas region plus the
outline overlay, and any other state (`SOLVED`) has no branch. -/
def tileRender (pc : Piece) (r : Rect) : List RenderCmd :=
  if pc.visState = VisState.HIDDEN then [RenderCmd.copyHidden r]
  else if pc.visState = VisState.FLIPPED then
    [RenderCmd.copyPuzzle pc.srcRect r, RenderCmd.copyOutline r]
  else []

/-- `renderUpdate`: clear, loop the per-tile branch over the parallel
piece and slot sequences, present. -/
def renderUpdate (pieces : List Piece) : List RenderCmd :=
  RenderCmd.clear :: (List.zipWith tileRender pieces dstCoords).flatten
    ++ [RenderCmd.present]

def defaultRect : Rect := { x := 0, y := 0, w := 0, h := 0 }

def rectsSeparated (a b : Rect) : Bool :=
  decide (a.x + a.w < b.x) || decide (b.x + b.w < a.x) ||
  decide (a.y + a.h < b.y) || decide (b.y + b.h < a.y)

def pairwiseSeparated : List Rect → Bool
  | [] => true
  | r :: rs => rs.all (fun q => rectsSeparated r q) && pairwiseSeparated rs

/-- The turn-controller invariant maintained by the event loop: the
`flippedCount` counter agrees with the number of `FLIPPED` tiles, never
exceeds `maxFlipped`, and the recorded `flippedIndices` cells point at
the currently flipped tiles. -/
def TurnInv (s : GameState) : Prop :=
  s.flippedCount ≤ 2 ∧
  countFlipped s.pieces = s.flippedCount ∧
  (s.flippedCount = 1 →
    s.fi0 < s.pieces.length ∧
    (s.pieces.getD s.fi0 defaultPiece).visState = VisState.FLIPPED) ∧
  (s.flippedCount = 2 →
    s.fi0 ≠ s.fi1 ∧ s.fi0 < s.pieces.length ∧ s.fi1 < s.pieces.length ∧
    (s.pieces.getD s.fi0 defaultPiece).visState = VisState.FLIPPED ∧
    (s.pieces.getD s.fi1 defaultPiece).visState = VisState.FLIPPED)

/-- The concrete two-tile matched state used to witness C4. -/
def cState4 : GameState :=
  { pieces :=
      [{ srcRect := { x := 0, y := 0, w := 40, h := 40 },
         visState := VisState.FLIPPED, id := [1] },
       { srcRect := { x := 40, y := 0, w := 40, h := 40 },
         visState := VisState.FLIPPED, id := [1] }],
    flippedCount := 2, fi0 := 0, fi1 := 1, flipTimer := 40,
    programState := ProgramState.PLAY }

/-- The concrete pending-resolution state used to witness C6. -/
def cState6 : GameState :=
  { pieces := List.replicate 100 defaultPiece,
    flippedCount := 2, fi0 := 0, fi1 := 0, flipTimer := 0,
    programState := ProgramState.PLAY }

/-- The concrete one-solved-tile state used to witness C7. -/
def cState7 : GameState :=
  { pieces := [{ defaultPiece with visState := VisState.SOLVED }],
    flippedCount := 0, fi0 := 0, fi1 := 0, flipTimer := 0,
    programState := ProgramState.PLAY }

/-- A concrete solved tile used in the C8 statements. -/
def solvedTile8 : Piece :=
  { srcRect := { x := 0, y := 0, w := 40, h := 40 },
    visState := VisState.SOLVED, id := [3] }

/-- A concrete slot rectangle used in the C8 statements. -/
def slotRect8 : Rect := { x := 120, y := 40, w := 40, h := 40 }

theorem getD_set_same {α : Type} (l : List α) (i : Nat) (a d : α) (h : i < l.length) :
    (l.set i a).getD i d = a := by
  rw [List.getD_eq_getElem _ _ (by simpa using h)]
  exact List.getElem_set_self (by simpa using h)

theorem getD_set_of_ne {α : Type} (l : List α) (i j : Nat) (a d : α) (h : i ≠ j) :
    (l.set i a).getD j d = l.getD j d := by
  rw [List.getD_eq_getD_get?, List.getD_eq_getD_get?, List.get?_eq_getElem?,
    List.get?_eq_getElem?, List.getElem?_set_ne h]

theorem countP_set_plus {α : Type} (q : α → Bool) :
    ∀ (l : List α) (i : Nat) (a d : α), i < l.length →
    (l.set i a).countP q + (if q (l.getD i d) = true then 1 else 0)
      = l.countP q + (if q a = true then 1 else 0) := by
  intro l
  induction l with
  | nil => intro i a d h; simp at h
  | cons b t ih =>
    intro i a d h
    cases i with
    | zero =>
      simp only [List.set_cons_zero, List.countP_cons, List.getD_cons_zero]
      omega
    | succ n =>
      simp only [List.set_cons_succ, List.countP_cons, List.getD_cons_succ]
      have := ih n a d (by simpa using h)
      omega

theorem getCons_set_perm {α : Type} :
    ∀ (t : List α) (m : Nat) (hm : m < t.length) (a : α),
    (t.get ⟨m, hm⟩ :: t.set m a).Perm (a :: t) := by
  intro t
  induction t with
  | nil => intro m hm a; simp at hm
  | cons b t ih =>
    intro m hm a
    cases m with
    | zero => exact List.Perm.swap a b t
    | succ n =>
      have hn : n < t.length := by simpa using hm
      show ((t.get ⟨n, hn⟩) :: b :: t.set n a).Perm (a :: b :: t)
      exact (List.Perm.swap b (t.get ⟨n, hn⟩) (t.set n a)).trans
        ((List.Perm.cons b (ih n hn a)).trans (List.Perm.swap a b t))

theorem set_set_perm {α : Type} :
    ∀ (l : List α) (i j : Nat) (hi : i < l.length) (hj : j < l.length),
    ((l.set i (l.get ⟨j, hj⟩)).set j (l.get ⟨i, hi⟩)).Perm l := by
  intro l
  induction l with
  | nil => intro i j hi hj; simp at hi
  | cons a t ih =>
    intro i j hi hj
    cases i with
    | zero =>
      cases j with
      | zero => show (a :: t).Perm (a :: t); exact List.Perm.refl _
      | succ m =>
        have hm : m < t.length := by simpa using hj
        show (t.get ⟨m, hm⟩ :: t.set m a).Perm (a :: t)
        exact getCons_set_perm t m hm a
    | succ n =>
      cases j with
      | zero =>
        have hn : n < t.length := by simpa using hi
        show (t.get ⟨n, hn⟩ :: t.set n a).Perm (a :: t)
        exact getCons_set_perm t n hn a
      | succ m =>
        have hn : n < t.length := by simpa using hi
        have hm : m < t.length := by simpa using hj
        show (a :: (t.set n (t.get ⟨m, hm⟩)).set m (t.get ⟨n, hn⟩)).Perm (a :: t)
        exact List.Perm.cons a (ih n m hn hm)

theorem listSwap_perm {α : Type} (l : List α) (i j : Nat) : (listSwap l i j).Perm l := by
  unfold listSwap
  split
  · split
    · exact set_set_perm l i j (by assumption) (by assumption)
    · exact List.Perm.refl l
  · exact List.Perm.refl l

theorem fisherYatesAux_perm {α : Type} (js : Nat → Nat) :
    ∀ (n : Nat) (l : List α), (fisherYatesAux js n l).Perm l := by
  intro n
  induction n with
  | zero => intro l; exact List.Perm.refl l
  | succ i ih =>
    intro l
    exact (ih _).trans (listSwap_perm l (i + 1) (js (i + 1) % (i + 2)))

theorem shuffleList_perm {α : Type} (js : Nat → Nat) (l : List α) :
    (shuffleList js l).Perm l :=
  fisherYatesAux_perm js (l.length - 1) l

theorem separated_not_both (a b : Rect) (p : Int × Int)
    (hs : rectsSeparated a b = true)
    (h1 : mouseWithinRectBound p a = true)
    (h2 : mouseWithinRectBound p b = true) : False := by
  simp only [rectsSeparated, mouseWithinRectBound, Bool.or_eq_true, Bool.and_eq_true,
    decide_eq_true_eq, ge_iff_le] at hs h1 h2
  omega

theorem pairwiseSeparated_getD :
    ∀ (l : List Rect), pairwiseSeparated l = true →
    ∀ i j, i < j → j < l.length →
    rectsSeparated (l.getD i defaultRect) (l.getD j defaultRect) = true := by
  intro l
  induction l with
  | nil => intro h i j hij hj; simp at hj
  | cons r rs ih =>
    intro h i j hij hj
    simp only [pairwiseSeparated, Bool.and_eq_true] at h
    obtain ⟨hall, hrest⟩ := h
    cases i with
    | zero =>
      cases j with
      | zero => omega
      | succ m =>
        have hm : m < rs.length := by simpa using hj
        have hmem : rs.getD m defaultRect ∈ rs := by
          rw [List.getD_eq_getElem rs defaultRect hm]
          exact List.getElem_mem hm
        have := List.all_eq_true.mp hall _ hmem
        simpa [List.getD_cons_zero, List.getD_cons_succ] using this
    | succ n =>
      cases j with
      | zero => omega
      | succ m =>
        simp only [List.getD_cons_succ]
        exact ih hrest n m (by omega) (by simpa using hj)

set_option maxRecDepth 20000 in
theorem dst_separated : pairwiseSeparated dstCoords = true := by decide

set_option maxRecDepth 20000 in
theorem dstCoords_length : dstCoords.length = 100 := by decide

theorem slot_unique (p : Int × Int) (i j : Nat)
    (hi : i < dstCoords.length) (hj : j < dstCoords.length)
    (h1 : mouseWithinRectBound p (dstCoords.getD i defaultRect) = true)
    (h2 : mouseWithinRectBound p (dstCoords.getD j defaultRect) = true) : i = j := by
  rcases Nat.lt_trichotomy i j with h | h | h
  · exact (separated_not_both _ _ p
      (pairwiseSeparated_getD dstCoords dst_separated i j h hj) h1 h2).elim
  · exact h
  · exact (separated_not_both _ _ p
      (pairwiseSeparated_getD dstCoords dst_separated j i h hi) h2 h1).elim

theorem findClickAux_some (p : Int × Int) :
    ∀ (rs : List Rect) (pcs : List Piece) (k i : Nat),
    findClickAux p rs pcs k = some i →
    k ≤ i ∧ i - k < rs.length ∧ i - k < pcs.length ∧
    mouseWithinRectBound p (rs.getD (i - k) defaultRect) = true ∧
    (pcs.getD (i - k) defaultPiece).visState = VisState.HIDDEN := by
  intro rs
  induction rs with
  | nil => intro pcs k i h; simp [findClickAux] at h
  | cons r rs ih =>
    intro pcs k i h
    cases pcs with
    | nil => simp [findClickAux] at h
    | cons pc pcs =>
      by_cases hc : (mouseWithinRectBound p r && decide (pc.visState = VisState.HIDDEN)) = true
      · rw [findClickAux, if_pos hc] at h
        have hc2 : mouseWithinRectBound p r = true ∧ pc.visState = VisState.HIDDEN := by
          simpa using hc
        obtain ⟨hw, hh⟩ := hc2
        have hk : k = i := by simpa using h
        subst hk
        refine ⟨Nat.le_refl k, by simp, by simp, ?_, ?_⟩
        · simpa [Nat.sub_self, List.getD_cons_zero] using hw
        · simpa [Nat.sub_self, List.getD_cons_zero] using hh
      · rw [findClickAux, if_neg hc] at h
        obtain ⟨h1, h2, h3, h4, h5⟩ := ih pcs (k + 1) i h
        have hk : k ≤ i := by omega
        have hik : i - k = (i - (k + 1)) + 1 := by omega
        rw [hik]
        exact ⟨hk, by simp; omega, by simp; omega,
          by simpa [List.getD_cons_succ] using h4,
          by simpa [List.getD_cons_succ] using h5⟩

theorem findClickTarget_some (p : Int × Int) (pcs : List Piece) (i : Nat)
    (h : findClickTarget p pcs = some i) :
    i < dstCoords.length ∧ i < pcs.length ∧
    mouseWithinRectBound p (dstCoords.getD i defaultRect) = true ∧
    (pcs.getD i defaultPiece).visState = VisState.HIDDEN := by
  obtain ⟨_, h2, h3, h4, h5⟩ := findClickAux_some p dstCoords pcs 0 i h
  rw [Nat.sub_zero] at h2 h3 h4 h5
  exact ⟨h2, h3, h4, h5⟩

theorem firstContainingAux_some (p : Int × Int) :
    ∀ (rs : List Rect) (k i : Nat),
    firstContainingAux p rs k = some i →
    k ≤ i ∧ i - k < rs.length ∧
    mouseWithinRectBound p (rs.getD (i - k) defaultRect) = true := by
  intro rs
  induction rs with
  | nil => intro k i h; simp [firstContainingAux] at h
  | cons r rs ih =>
    intro k i h
    by_cases hc : mouseWithinRectBound p r = true
    · rw [firstContainingAux, if_pos hc] at h
      have hk : k = i := by simpa using h
      subst hk
      refine ⟨Nat.le_refl k, by simp, ?_⟩
      simpa [Nat.sub_self, List.getD_cons_zero] using hc
    · rw [firstContainingAux, if_neg hc] at h
      obtain ⟨h1, h2, h3⟩ := ih (k + 1) i h
      have hik : i - k = (i - (k + 1)) + 1 := by omega
      rw [hik]
      exact ⟨by omega, by simp; omega, by simpa [List.getD_cons_succ] using h3⟩

theorem firstContaining_some (p : Int × Int) (i : Nat)
    (h : firstContaining p = some i) :
    i < dstCoords.length ∧
    mouseWithinRectBound p (dstCoords.getD i defaultRect) = true := by
  obtain ⟨_, h2, h3⟩ := firstContainingAux_some p dstCoords 0 i h
  rw [Nat.sub_zero] at h2 h3
  exact ⟨h2, h3⟩

theorem srcLoop_hidden (d : Nat → Nat) (xRowLen : Int) :
    ∀ (n rectI : Nat) (xO yO rC : Int) (pc : Piece),
    pc ∈ srcLoop d xRowLen n rectI xO yO rC → pc.visState = VisState.HIDDEN := by
  intro n
  induction n with
  | zero => intro rectI xO yO rC pc h; simp [srcLoop] at h
  | succ m ih =>
    intro rectI xO yO rC pc h
    rw [srcLoop] at h
    rcases List.mem_cons.mp h with h | h
    · rw [h]
    · by_cases hc : rC ≥ xRowLen
      · rw [if_pos hc] at h; exact ih _ _ _ _ pc h
      · rw [if_neg hc] at h; exact ih _ _ _ _ pc h

theorem setupPieces_hidden (d : Nat → Nat) (total : Nat) (pc : Piece)
    (h : pc ∈ setupPieces d total) : pc.visState = VisState.HIDDEN := by
  have base : ∀ q : Piece,
      q ∈ setupSrcPieces d total ++ List.replicate (total - total / 2) defaultPiece →
      q.visState = VisState.HIDDEN := by
    intro q hq
    rcases List.mem_append.mp hq with hq | hq
    · exact srcLoop_hidden d _ _ _ _ _ _ q hq
    · rw [List.eq_of_mem_replicate hq]; rfl
  unfold setupPieces stdCopyHalf at h
  rcases List.mem_append.mp h with h | h
  · exact base pc (List.mem_of_mem_take h)
  · rcases List.mem_append.mp h with h | h
    · exact base pc (List.mem_of_mem_take h)
    · exact base pc (List.mem_of_mem_drop h)

theorem countFlipped_initState (d js : Nat → Nat) :
    countFlipped (initState d js).pieces = 0 := by
  unfold initState countFlipped
  rw [List.Perm.countP_eq _ (shuffleList_perm js (setupPieces d puzzlePiecesTotal))]
  rw [List.countP_eq_zero]
  intro a ha
  rw [setupPieces_hidden d puzzlePiecesTotal a ha]
  decide

theorem length_setVis (l : List Piece) (i : Nat) (v : VisState) :
    (setVis l i v).length = l.length := List.length_set l i _

theorem getD_setVis_same (l : List Piece) (i : Nat) (v : VisState) (h : i < l.length) :
    ((setVis l i v).getD i defaultPiece).visState = v := by
  unfold setVis; rw [getD_set_same _ _ _ _ h]

theorem getD_setVis_of_ne (l : List Piece) (i j : Nat) (v : VisState) (h : i ≠ j) :
    (setVis l i v).getD j defaultPiece = l.getD j defaultPiece := by
  unfold setVis; exact getD_set_of_ne _ _ _ _ _ h

theorem countFlipped_setVis (l : List Piece) (i : Nat) (v : VisState) (h : i < l.length) :
    countFlipped (setVis l i v)
        + (if (l.getD i defaultPiece).visState = VisState.FLIPPED then 1 else 0)
      = countFlipped l + (if v = VisState.FLIPPED then 1 else 0) := by
  unfold countFlipped setVis
  have e := countP_set_plus (fun pc => decide (pc.visState = VisState.FLIPPED)) l i
    ({ l.getD i defaultPiece with visState := v }) defaultPiece h
  simpa using e

theorem clickPart_inv (p : Int × Int) (s : GameState) (hI : TurnInv s) :
    TurnInv (clickPart p s) := by
  obtain ⟨hle, hcnt, h1, h2⟩ := hI
  unfold clickPart
  split
  · exact ⟨hle, hcnt, h1, h2⟩
  next i hfc =>
    by_cases hlt : s.flippedCount < maxFlipped
    · rw [if_pos hlt]
      obtain ⟨hid, hip, hw, hhid⟩ := findClickTarget_some p s.pieces i hfc
      have hcount : countFlipped (setVis s.pieces i VisState.FLIPPED)
          = countFlipped s.pieces + 1 := by
        have e := countFlipped_setVis s.pieces i VisState.FLIPPED hip
        rw [hhid] at e
        simpa using e
      simp only [maxFlipped] at hlt
      refine ⟨?_, ?_, ?_, ?_⟩
      · show s.flippedCount + 1 ≤ 2
        omega
      · show countFlipped (setVis s.pieces i VisState.FLIPPED) = s.flippedCount + 1
        rw [hcount, hcnt]
      · intro hc
        have hc0 : s.flippedCount = 0 := by
          have hx : s.flippedCount + 1 = 1 := hc
          omega
        refine ⟨?_, ?_⟩
        · show (if s.flippedCount = 0 then i else s.fi0)
              < (setVis s.pieces i VisState.FLIPPED).length
          rw [if_pos hc0, length_setVis]
          exact hip
        · show ((setVis s.pieces i VisState.FLIPPED).getD
              (if s.flippedCount = 0 then i else s.fi0) defaultPiece).visState
              = VisState.FLIPPED
          rw [if_pos hc0]
          exact getD_setVis_same s.pieces i VisState.FLIPPED hip
      · intro hc
        have hc1 : s.flippedCount = 1 := by
          have hx : s.flippedCount + 1 = 2 := hc
          omega
        obtain ⟨hf0lt, hf0flip⟩ := h1 hc1
        have hne : i ≠ s.fi0 := by
          intro he
          rw [he] at hhid
          rw [hhid] at hf0flip
          exact VisState.noConfusion hf0flip
        have hnz : ¬(s.flippedCount = 0) := by omega
        refine ⟨?_, ?_, ?_, ?_, ?_⟩
        · show (if s.flippedCount = 0 then i else s.fi0)
              ≠ (if s.flippedCount = 1 then i else s.fi1)
          rw [if_neg hnz, if_pos hc1]
          exact fun he => hne he.symm
        · show (if s.flippedCount = 0 then i else s.fi0)
              < (setVis s.pieces i VisState.FLIPPED).length
          rw [if_neg hnz, length_setVis]
          exact hf0lt
        · show (if s.flippedCount = 1 then i else s.fi1)
              < (setVis s.pieces i VisState.FLIPPED).length
          rw [if_pos hc1, length_setVis]
          exact hip
        · show ((setVis s.pieces i VisState.FLIPPED).getD
              (if s.flippedCount = 0 then i else s.fi0) defaultPiece).visState
              = VisState.FLIPPED
          rw [if_neg hnz, getD_setVis_of_ne s.pieces i s.fi0 VisState.FLIPPED hne]
          exact hf0flip
        · show ((setVis s.pieces i VisState.FLIPPED).getD
              (if s.flippedCount = 1 then i else s.fi1) defaultPiece).visState
              = VisState.FLIPPED
          rw [if_pos hc1]
          exact getD_setVis_same s.pieces i VisState.FLIPPED hip
    · rw [if_neg hlt]
      exact ⟨hle, hcnt, h1, h2⟩

theorem countFlipped_resolve (s : GameState) (v : VisState)
    (hv : ¬v = VisState.FLIPPED)
    (hne : s.fi0 ≠ s.fi1) (hb0 : s.fi0 < s.pieces.length)
    (hb1 : s.fi1 < s.pieces.length)
    (hf0 : (s.pieces.getD s.fi0 defaultPiece).visState = VisState.FLIPPED)
    (hf1 : (s.pieces.getD s.fi1 defaultPiece).visState = VisState.FLIPPED)
    (hcnt : countFlipped s.pieces = 2) :
    countFlipped (setVis (setVis s.pieces s.fi0 v) s.fi1 v) = 0 := by
  have e1 := countFlipped_setVis s.pieces s.fi0 v hb0
  rw [hf0, if_pos rfl, if_neg hv] at e1
  have hb1a : s.fi1 < (setVis s.pieces s.fi0 v).length := by
    rw [length_setVis]; exact hb1
  have e2 := countFlipped_setVis (setVis s.pieces s.fi0 v) s.fi1 v hb1a
  rw [getD_setVis_of_ne s.pieces s.fi0 s.fi1 v hne, hf1, if_pos rfl, if_neg hv] at e2
  omega

theorem timerPart_inv (s : GameState) (hI : TurnInv s) : TurnInv (timerPart s) := by
  obtain ⟨hle, hcnt, h1, h2⟩ := hI
  unfold timerPart
  by_cases hge : maxFlipped ≤ s.flippedCount
  · rw [if_pos hge]
    have hc2 : s.flippedCount = 2 := by
      simp only [maxFlipped] at hge
      omega
    obtain ⟨hne, hb0, hb1, hf0, hf1⟩ := h2 hc2
    have hcnt2 : countFlipped s.pieces = 2 := by rw [hcnt, hc2]
    by_cases ht : s.flipTimer + 1 > 40
    · rw [if_pos ht]
      by_cases hidm : (s.pieces.getD s.fi0 defaultPiece).id
          = (s.pieces.getD s.fi1 defaultPiece).id
      · rw [if_pos hidm]
        refine ⟨Nat.zero_le 2, ?_, ?_, ?_⟩
        · show countFlipped
              (setVis (setVis s.pieces s.fi0 VisState.SOLVED) s.fi1 VisState.SOLVED) = 0
          exact countFlipped_resolve s VisState.SOLVED (by decide) hne hb0 hb1 hf0 hf1 hcnt2
        · intro hcc
          exact absurd (show (0 : Nat) = 1 from hcc) (by decide)
        · intro hcc
          exact absurd (show (0 : Nat) = 2 from hcc) (by decide)
      · rw [if_neg hidm]
        refine ⟨Nat.zero_le 2, ?_, ?_, ?_⟩
        · show countFlipped
              (setVis (setVis s.pieces s.fi0 VisState.HIDDEN) s.fi1 VisState.HIDDEN) = 0
          exact countFlipped_resolve s VisState.HIDDEN (by decide) hne hb0 hb1 hf0 hf1 hcnt2
        · intro hcc
          exact absurd (show (0 : Nat) = 1 from hcc) (by decide)
        · intro hcc
          exact absurd (show (0 : Nat) = 2 from hcc) (by decide)
    · rw [if_neg ht]
      exact ⟨hle, hcnt, h1, h2⟩
  · rw [if_neg hge]
    exact ⟨hle, hcnt, h1, h2⟩

theorem reachable_inv (s : GameState) (h : Reachable s) : TurnInv s := by
  induction h with
  | init d js =>
    refine ⟨Nat.zero_le 2, countFlipped_initState d js, ?_, ?_⟩
    · intro hh
      exact absurd (show (0 : Nat) = 1 from hh) (by decide)
    · intro hh
      exact absurd (show (0 : Nat) = 2 from hh) (by decide)
  | click s p hr ih => exact timerPart_inv _ (clickPart_inv p s ih)
  | tick s hr ih => exact timerPart_inv _ ih

theorem vis_after_double_set (l : List Piece) (i j : Nat) (v : VisState)
    (hi : i < l.length) (hj : j < l.length) :
    ((setVis (setVis l i v) j v).getD i defaultPiece).visState = v ∧
    ((setVis (setVis l i v) j v).getD j defaultPiece).visState = v := by
  have hj2 : j < (setVis l i v).length := by rw [length_setVis]; exact hj
  constructor
  · by_cases hij : j = i
    · rw [hij] at hj2 ⊢
      exact getD_setVis_same _ _ _ hj2
    · rw [getD_setVis_of_ne _ j i v hij]
      exact getD_setVis_same _ _ _ hi
  · exact getD_setVis_same _ _ _ hj2

/-- C4: in a state with two pending flipped tiles, once the delay counter
passes the threshold a single `eventPoll` performs resolution: equal
pending ids make both tiles `SOLVED` (and the program transitions to the
terminal state when the whole board is then solved); unequal ids make
both tiles `HIDDEN`; in either branch `flippedCount` and `flipTimer`
reset to 0. -/
theorem C4_resolution (s : GameState)
    (hc : s.flippedCount = maxFlipped) (ht : 40 ≤ s.flipTimer)
    (hb0 : s.fi0 < s.pieces.length) (hb1 : s.fi1 < s.pieces.length) :
    ((s.pieces.getD s.fi0 defaultPiece).id = (s.pieces.getD s.fi1 defaultPiece).id →
      ((eventPollTick s).pieces.getD s.fi0 defaultPiece).visState = VisState.SOLVED ∧
      ((eventPollTick s).pieces.getD s.fi1 defaultPiece).visState = VisState.SOLVED ∧
      (puzzleSolved (eventPollTick s).pieces = true →
        (eventPollTick s).programState = ProgramState.TRANSITION)) ∧
    (¬(s.pieces.getD s.fi0 defaultPiece).id = (s.pieces.getD s.fi1 defaultPiece).id →
      ((eventPollTick s).pieces.getD s.fi0 defaultPiece).visState = VisState.HIDDEN ∧
      ((eventPollTick s).pieces.getD s.fi1 defaultPiece).visState = VisState.HIDDEN) ∧
    (eventPollTick s).flippedCount = 0 ∧
    (eventPollTick s).flipTimer = 0 := by
  unfold eventPollTick timerPart
  have hge : maxFlipped ≤ s.flippedCount := by rw [hc]
  rw [if_pos hge]
  have ht2 : s.flipTimer + 1 > 40 := by omega
  rw [if_pos ht2]
  by_cases hidm : (s.pieces.getD s.fi0 defaultPiece).id
      = (s.pieces.getD s.fi1 defaultPiece).id
  · rw [if_pos hidm]
    refine ⟨?_, ?_, rfl, rfl⟩
    · intro _
      refine ⟨(vis_after_double_set s.pieces s.fi0 s.fi1 VisState.SOLVED hb0 hb1).1,
        (vis_after_double_set s.pieces s.fi0 s.fi1 VisState.SOLVED hb0 hb1).2, ?_⟩
      intro hps
      show (if puzzleSolved
          (setVis (setVis s.pieces s.fi0 VisState.SOLVED) s.fi1 VisState.SOLVED) = true then
        ProgramState.TRANSITION else s.programState) = ProgramState.TRANSITION
      rw [if_pos hps]
    · intro hne
      exact (hne hidm).elim
  · rw [if_neg hidm]
    refine ⟨?_, ?_, rfl, rfl⟩
    · intro hid
      exact (hidm hid).elim
    · intro _
      exact vis_after_double_set s.pieces s.fi0 s.fi1 VisState.HIDDEN hb0 hb1

/-- C4 witness: the hypotheses of `C4_resolution` hold at `cState4` and
resolution solves both tiles and resets the counters there. -/
theorem C4_witness :
    ((eventPollTick cState4).pieces.getD 0 defaultPiece).visState = VisState.SOLVED ∧
    ((eventPollTick cState4).pieces.getD 1 defaultPiece).visState = VisState.SOLVED ∧
    (eventPollTick cState4).flippedCount = 0 ∧
    (eventPollTick cState4).flipTimer = 0 :=
  have h := C4_resolution cState4 rfl (by decide) (by decide) (by decide)
  ⟨(h.1 rfl).1, (h.1 rfl).2.1, h.2.2.1, h.2.2.2⟩

/-- C5: in every state reachable from the initial board by click and tick
steps, the number of tiles whose `visState` is `FLIPPED` is at most 2. -/
theorem C5_at_most_two_flipped (s : GameState) (h : Reachable s) :
    countFlipped s.pieces ≤ 2 := by
  obtain ⟨hle, hcnt, h1, h2⟩ := reachable_inv s h
  omega

/-- C5 witness: the bound holds at a concrete initial state. -/
theorem C5_witness :
    countFlipped (initState (fun _ => 1) (fun _ => 0)).pieces ≤ 2 :=
  C5_at_most_two_flipped (initState (fun _ => 1) (fun _ => 0))
    (Reachable.init (fun _ => 1) (fun _ => 0))

/-- C6: while two flipped tiles are pending comparison and the delay
counter is below the threshold, an `eventPoll` that processes a left
click on a slot holding a hidden tile leaves the tile vector (hence
every tile's visual state) unchanged: no third tile flips. -/
theorem C6_no_third_flip (s : GameState) (p : Int × Int)
    (hc : s.flippedCount = 2) (ht : s.flipTimer < 40)
    (_hhid : ∃ i, findClickTarget p s.pieces = some i) :
    (eventPollClick p s).pieces = s.pieces := by
  have hclick : clickPart p s = s := by
    unfold clickPart
    split
    · rfl
    next i hfc =>
      rw [if_neg]
      rw [hc]
      decide
  show (timerPart (clickPart p s)).pieces = s.pieces
  rw [hclick]
  unfold timerPart
  rw [if_pos (show maxFlipped ≤ s.flippedCount by rw [hc]; decide),
    if_neg (show ¬(s.flipTimer + 1 > 40) by omega)]

/-- C6 witness: at `cState6` the click point `(75, 40)` hits slot 0,
whose tile is hidden, and the event leaves the tiles unchanged. -/
theorem C6_witness :
    findClickTarget (75, 40) cState6.pieces = some 0 ∧
    (eventPollClick (75, 40) cState6).pieces = cState6.pieces :=
  ⟨rfl, C6_no_third_flip cState6 (75, 40) rfl (by decide) ⟨0, rfl⟩⟩

/-- C7: a left click whose point lands in a slot whose tile is `FLIPPED`
or `SOLVED` (not `HIDDEN`) changes nothing: the mouse-button handler
returns the state unchanged. -/
theorem C7_click_nonhidden_noop (s : GameState) (p : Int × Int) (i : Nat)
    (hfc : firstContaining p = some i)
    (hvis : ¬(s.pieces.getD i defaultPiece).visState = VisState.HIDDEN) :
    clickPart p s = s := by
  have hnone : findClickTarget p s.pieces = none := by
    cases hq : findClickTarget p s.pieces with
    | none => rfl
    | some j =>
      obtain ⟨hj1, hj2, hj3, hj4⟩ := findClickTarget_some p s.pieces j hq
      obtain ⟨hi1, hi2⟩ := firstContaining_some p i hfc
      have hji : j = i := slot_unique p j i hj1 hi1 hj3 hi2
      rw [hji] at hj4
      exact absurd hj4 hvis
  unfold clickPart
  rw [hnone]

/-- C7 witness: the click point `(75, 40)` lands in slot 0, the tile
there is `SOLVED`, and the click handler is a no-op at `cState7`. -/
theorem C7_witness :
    firstContaining (75, 40) = some 0 ∧
    clickPart (75, 40) cState7 = cState7 :=
  ⟨rfl, C7_click_nonhidden_noop cState7 (75, 40) 0 rfl (by decide)⟩

/-- C10: the slot rectangles computed at startup are pairwise disjoint
under the inclusive `mouseWithinRectBound` test, so every click point is
contained in at most one slot (and the first containing slot found in
slot order is therefore the unique one). -/
theorem C10_at_most_one_slot (p : Int × Int) (i j : Nat)
    (hi : i < dstCoords.length) (hj : j < dstCoords.length)
    (h1 : mouseWithinRectBound p (dstCoords.getD i defaultRect) = true)
    (h2 : mouseWithinRectBound p (dstCoords.getD j defaultRect) = true) :
    i = j :=
  slot_unique p i j hi hj h1 h2

/-- C10 witness: the point `(75, 40)` is inside slot 0, and the theorem
applied at that point identifies the containing slot uniquely. -/
theorem C10_witness :
    mouseWithinRectBound (75, 40) (dstCoords.getD 0 defaultRect) = true ∧
    (0 : Nat) = 0 :=
  ⟨rfl, C10_at_most_one_slot (75, 40) 0 0
    (by rw [dstCoords_length]; decide) (by rw [dstCoords_length]; decide) rfl rfl⟩

/-- C1: `shufflePuzzlePieces` permutes the tile sequence only: for every
board state and injected engine, the shuffled `puzzlePiecesAll` is a
permutation of the original tile sequence, while the slot sequence
`dstCoords` is element-for-element identical to its pre-shuffle value
and keeps its length; the startup slot sequence has all
`puzzlePiecesTotal` slots in the original grid-layout order. -/
theorem C1_shuffle_permutes_tiles_only (js : Nat → Nat) (b : BoardState) :
    ((shufflePuzzlePieces js b).pieces).Perm b.pieces ∧
    (shufflePuzzlePieces js b).dst = b.dst ∧
    (shufflePuzzlePieces js b).dst.length = b.dst.length ∧
    dstCoords.length = puzzlePiecesTotal :=
  ⟨shuffleList_perm js b.pieces, rfl, rfl, by rw [dstCoords_length]; rfl⟩

set_option maxRecDepth 8000 in
/-- C2 (code evaluated at the failing input): with the digit-distribution
stream constantly drawing 1, setup gives all 100 tiles the identity
`1111111111`: one distinct identity carried by 100 tiles, not 50
identities on exactly two tiles each. -/
theorem C2_identity_collision_at_constant_stream :
    (setupPieces (fun _ => 1) puzzlePiecesTotal).countP
        (fun pc => decide (pc.id = List.replicate 10 1)) = 100 ∧
    (setupPieces (fun _ => 1) puzzlePiecesTotal).length = 100 ∧
    ((setupPieces (fun _ => 1) puzzlePiecesTotal).map (fun pc => pc.id)).dedup.length
      = 1 :=
  ⟨by decide, by decide, by decide⟩

set_option maxRecDepth 8000 in
/-- C3 (counterexample): the half-to-half `std::copy` of setup is not a
no-op: on a length-100 pre-state whose first tile differs from tile 50,
the vector after the copy differs from the vector before it. -/
theorem C3_counterexample :
    ({ defaultPiece with id := [2] } :: List.replicate 99 defaultPiece).length = 100 ∧
    ¬stdCopyHalf sizeHalf ({ defaultPiece with id := [2] } :: List.replicate 99 defaultPiece)
      = { defaultPiece with id := [2] } :: List.replicate 99 defaultPiece :=
  ⟨by decide, by decide⟩

/-- C3 (amended): on every length-100 tile vector the range copy leaves
the first half unchanged and overwrites the second half with a copy of
the first half; it is a no-op exactly when the second half already
equals the first half. -/
theorem C3_copy_duplicates_first_half (l : List Piece) (hl : l.length = 100) :
    (stdCopyHalf sizeHalf l).take sizeHalf = l.take sizeHalf ∧
    (stdCopyHalf sizeHalf l).drop sizeHalf = l.take sizeHalf ∧
    (stdCopyHalf sizeHalf l = l ↔ l.drop sizeHalf = l.take sizeHalf) := by
  have hs : sizeHalf = 50 := by decide
  rw [hs]
  have hlen : (l.take 50).length = 50 := by
    rw [List.length_take, hl]; omega
  have hdrop : l.drop (50 + 50) = [] := List.drop_eq_nil_of_le (by omega)
  have hform : stdCopyHalf 50 l = l.take 50 ++ l.take 50 := by
    unfold stdCopyHalf; rw [hdrop, List.append_nil]
  rw [hform]
  refine ⟨List.take_left' hlen, List.drop_left' hlen, ?_⟩
  constructor
  · intro h
    have h2 : l.take 50 ++ l.take 50 = l.take 50 ++ l.drop 50 := by
      rw [h, List.take_append_drop]
    exact (List.append_cancel_left h2).symm
  · intro h
    have h3 := List.take_append_drop 50 l
    rw [h] at h3
    exact h3

set_option maxRecDepth 8000 in
/-- C3 witness: the amended statement instantiated at the all-default
length-100 vector (on which the copy happens to be a no-op). -/
theorem C3_witness :
    (stdCopyHalf sizeHalf (List.replicate 100 defaultPiece)).take sizeHalf
      = (List.replicate 100 defaultPiece).take sizeHalf ∧
    (stdCopyHalf sizeHalf (List.replicate 100 defaultPiece)).drop sizeHalf
      = (List.replicate 100 defaultPiece).take sizeHalf ∧
    (stdCopyHalf sizeHalf (List.replicate 100 defaultPiece)
        = List.replicate 100 defaultPiece
      ↔ (List.replicate 100 defaultPiece).drop sizeHalf
        = (List.replicate 100 defaultPiece).take sizeHalf) :=
  C3_copy_duplicates_first_half (List.replicate 100 defaultPiece) (by decide)

/-- C8 (counterexample): a `SOLVED` tile is not drawn by the flipped
path: its per-tile render emits no command at all (in particular not the
atlas-copy-plus-outline the flipped path emits), and a board whose only
tile is solved renders just the clear and present calls. -/
theorem C8_counterexample :
    tileRender solvedTile8 slotRect8 = [] ∧
    ¬([] : List RenderCmd)
      = [RenderCmd.copyPuzzle solvedTile8.srcRect slotRect8,
         RenderCmd.copyOutline slotRect8] ∧
    renderUpdate [solvedTile8] = [RenderCmd.clear, RenderCmd.present] :=
  ⟨rfl, by decide, rfl⟩

/-- C8 (amended): the render loop has branches only for `HIDDEN` and
`FLIPPED`; a `SOLVED` tile contributes no draw command, unlike the same
tile in the `FLIPPED` state, which is drawn from its atlas region at the
slot rectangle with the outline overlay.  `SOLVED` does not share the
`FLIPPED` draw path. -/
theorem C8_solved_not_drawn (pc : Piece) (r : Rect)
    (h : pc.visState = VisState.SOLVED) :
    tileRender pc r = [] ∧
    tileRender { pc with visState := VisState.FLIPPED } r
      = [RenderCmd.copyPuzzle pc.srcRect r, RenderCmd.copyOutline r] := by
  constructor
  · unfold tileRender
    rw [h]
    simp
  · unfold tileRender
    simp

/-- C8 witness: the amended statement at a concrete solved tile. -/
theorem C8_witness :
    tileRender solvedTile8 slotRect8 = [] ∧
    tileRender { solvedTile8 with visState := VisState.FLIPPED } slotRect8
      = [RenderCmd.copyPuzzle solvedTile8.srcRect slotRect8,
         RenderCmd.copyOutline slotRect8] :=
  C8_solved_not_drawn solvedTile8 slotRect8 rfl

/-- C9 (counterexample): `totalTiles = 6` is even but not a perfect
square of slot positions, yet the modelled startup completes without a
`ConfigurationError`: the source performs no tile-count validation. -/
theorem C9_counterexample :
    startupSucceeds (fun _ => 1) (fun _ => 0) 6 = true ∧
    6 % 2 = 0 ∧ ¬(isqrt 6 * isqrt 6 = 6) :=
  ⟨rfl, rfl, by decide⟩

/-- C9 (amended): setup never fails: for every tile total the modelled
startup succeeds (there is no validation and no `ConfigurationError`
path in the code); the shipped constant `puzzlePiecesTotal = 100` is
even and a perfect square, so the invalid configurations never arise in
the program as built. -/
theorem C9_no_validation :
    (∀ (d js : Nat → Nat) (total : Nat), startupSucceeds d js total = true) ∧
    puzzlePiecesTotal % 2 = 0 ∧
    isqrt puzzlePiecesTotal * isqrt puzzlePiecesTotal = puzzlePiecesTotal :=
  ⟨fun _ _ _ => rfl, rfl, by decide⟩
